import Mathlib

/-!
Verification of the coa-api request-handling pipeline (src/main.go).

The embedding mirrors the Go source:
* `user` models `func user(r *http.Request) (string, error)`: header extraction,
  scheme-prefix stripping, token verification, claims extraction, and the
  email-verified check.  The OIDC verifier is an explicit parameter
  (`String → Except String IDToken`), since it is an external collaborator.
* The six domain operation handlers (`chartsOfAccounts`, `getChartOfAccounts`,
  `saveChartsOfAccounts`, `accounts`, `getAccount`, `saveAccount`) are embedded
  as functions from a repository implementation, a repository handle, path
  parameters and a body decoder to an output carrying the returned value/error
  together with the list of observable events (body decode, repository calls).
* `handler` models the dispatcher wrapper: authenticate, acquire a pooled
  handle, rebind its identity, invoke the domain handler, respond, and release
  the handle (the deferred `repositoryPool.Put`).  Its result is the ordered
  event trace of the request together with the written HTTP response.
-/

namespace CoaApi

/-- Model of `coa.ChartOfAccounts` as far as this layer touches it: a string id, an
owner (`User`), and the rest of the payload collapsed into `name`. -/
structure ChartOfAccounts where
  id : String
  name : String
  user : String
deriving DecidableEq, Repr

/-- Model of `coa.Account`, same shape at this layer. -/
structure Account where
  id : String
  name : String
  user : String
deriving DecidableEq, Repr

/-- The lazy body-decoding closure `func(v interface{}) error` passed to each
domain handler: decoding the body into a chart or into an account either
yields the decoded entity or a decode error. -/
structure Decoder where
  chart : Except String ChartOfAccounts
  account : Except String Account

/-- A request, reduced to what the pipeline reads: the values stored under the
`Authorization` header key (absent key = `none`, mirroring the two-valued map
lookup `r.Header["Authorization"]`), and the request body (represented by what
it decodes to, see `Decoder`). -/
structure Request where
  authorization : Option (List String)
  body : Decoder

/-- Token claims struct from `user`: `email` and `email_verified`. -/
structure Claims where
  email : String
  verified : Bool

/-- A verified ID token; `claims` models `idtoken.Claims(&claims)`, which can
fail with an unmarshalling error. -/
structure IDToken where
  claims : Except String Claims

/-- The repository handle pooled in `repositoryPool`: the embedded
`coa.CoaRepository` is abstracted into `RepoImpl` below, leaving the mutable
`user` field that is rebound on every lease. -/
structure Repository where
  user : String

/-- The calls a domain handler can make on `coa.CoaRepository`. -/
inductive RepoCall
  | allChartsOfAccounts
  | getChartOfAccounts (coa : String)
  | saveChartOfAccounts (c : ChartOfAccounts)
  | allAccounts (coa : String)
  | getAccount (coa : String) (account : String)
  | saveAccount (coa : String) (a : Account)
deriving DecidableEq, Repr

/-- The abstracted external repository behaviour: given the identity currently
bound in the handle (the backing key-value store reads `r.user` through the
pointer at call time) and the call, it returns an error or an optional result
value (results are opaque to this layer, kept as strings). -/
def RepoImpl : Type := String → RepoCall → Except String (Option String)

/-- Events observable from inside a domain operation handler: invoking the
body decoder, and making a repository call (recording the identity bound in
the handle at the moment of the call). -/
inductive HEv
  | decode
  | repo (u : String) (c : RepoCall)
deriving DecidableEq, Repr

/-- Result of a domain operation handler: its ordered events and its returned
`(interface{}, error)` pair, encoded as `Except error (Option value)`. -/
structure HOut where
  events : List HEv
  ret : Except String (Option String)

/-- Model of `httprouter.Params`: an ordered list of (key, value) pairs. -/
def Params : Type := List (String × String)

/-- Model of `httprouter.Params.ByName`: first value for the key, `""` if absent. -/
def byName (ps : Params) (n : String) : String :=
  match List.find? (fun p => p.1 == n) ps with
  | some p => p.2
  | none => ""

/-- Type of the six domain operation handlers
`func(*repository, httprouter.Params, decoder) (interface{}, error)`. -/
def HandlerFn : Type :=
  RepoImpl → Repository → Params → Decoder → HOut

/-- Token extraction from `user` (lines 116-121): take the first
`Authorization` value if the key is present and non-empty, strip a leading
`"Bearer "` (`strings.TrimPrefix`), otherwise the token stays `""`. -/
def tokenOf (r : Request) : String :=
  match r.authorization with
  | some (t :: _) => if t.startsWith "Bearer " then t.drop "Bearer ".length else t
  | some [] => ""
  | none => ""

/-- Model of `func user(r *http.Request) (string, error)`: verify the extracted token,
unmarshal the claims, reject unverified emails, return the email. -/
def user (verify : String → Except String IDToken) (r : Request) :
    Except String String :=
  match verify (tokenOf r) with
  | .error e => .error e
  | .ok idtoken =>
    match idtoken.claims with
    | .error e => .error e
    | .ok claims =>
      if !claims.verified then .error "email not verified"
      else .ok claims.email

/-- Model of `func chartsOfAccounts`: `return cr.AllChartsOfAccounts()`. -/
def chartsOfAccounts : HandlerFn := fun repo cr _ _ =>
  { events := [.repo cr.user .allChartsOfAccounts],
    ret := repo cr.user .allChartsOfAccounts }

/-- Model of `func getChartOfAccounts`: `return cr.GetChartOfAccounts(ps.ByName("coa"))`. -/
def getChartOfAccounts : HandlerFn := fun repo cr ps _ =>
  { events := [.repo cr.user (.getChartOfAccounts (byName ps "coa"))],
    ret := repo cr.user (.getChartOfAccounts (byName ps "coa")) }

/-- Model of `func saveChartsOfAccounts`: decode the body into a chart, overwrite its id
from the `coa` path parameter when the parameter is non-empty, stamp
`c.User = cr.user`, and delegate to `cr.SaveChartOfAccounts(c)`. -/
def saveChartsOfAccounts : HandlerFn := fun repo cr ps d =>
  match d.chart with
  | .error e => { events := [.decode], ret := .error e }
  | .ok c0 =>
    let c1 := if byName ps "coa" != "" then { c0 with id := byName ps "coa" } else c0
    let c2 := { c1 with user := cr.user }
    { events := [.decode, .repo cr.user (.saveChartOfAccounts c2)],
      ret := repo cr.user (.saveChartOfAccounts c2) }

/-- Model of `func accounts`: `return cr.AllAccounts(ps.ByName("coa"))`. -/
def accounts : HandlerFn := fun repo cr ps _ =>
  { events := [.repo cr.user (.allAccounts (byName ps "coa"))],
    ret := repo cr.user (.allAccounts (byName ps "coa")) }

/-- Model of `func getAccount`: `return cr.GetAccount(ps.ByName("coa"), ps.ByName("account"))`. -/
def getAccount : HandlerFn := fun repo cr ps _ =>
  { events := [.repo cr.user (.getAccount (byName ps "coa") (byName ps "account"))],
    ret := repo cr.user (.getAccount (byName ps "coa") (byName ps "account")) }

/-- Model of `func saveAccount`: decode the body into an account, overwrite its id from
the `account` path parameter when the parameter is non-empty, stamp
`a.User = cr.user`, and delegate to `cr.SaveAccount(ps.ByName("coa"), a)`. -/
def saveAccount : HandlerFn := fun repo cr ps d =>
  match d.account with
  | .error e => { events := [.decode], ret := .error e }
  | .ok a0 =>
    let a1 :=
      if byName ps "account" != "" then { a0 with id := byName ps "account" } else a0
    let a2 := { a1 with user := cr.user }
    { events := [.decode, .repo cr.user (.saveAccount (byName ps "coa") a2)],
      ret := repo cr.user (.saveAccount (byName ps "coa") a2) }

/-- The six handlers as they are wired to routes in `main`. -/
def routeHandlers : List HandlerFn :=
  [chartsOfAccounts, getChartOfAccounts, saveChartsOfAccounts,
   accounts, getAccount, saveAccount]

/-- The HTTP response as the dispatcher writes it: a status code, the
`Content-Type` header if one was set, and the body if one was written. -/
structure Response where
  status : Nat
  contentType : Option String
  body : Option String
deriving DecidableEq, Repr

/-- Model of `http.Error(w, msg, http.StatusInternalServerError)` as called from
`check`: status 500, plain-text content type, message plus newline as body. -/
def httpError (msg : String) : Response :=
  { status := 500,
    contentType := some "text/plain; charset=utf-8",
    body := some (msg ++ "\n") }

/-- Events of the dispatcher trace: acquiring a handle from the pool
(`repositoryPool.Get`), rebinding its identity (`cr.user = user`), an event
from inside the domain handler, and releasing the handle back
(`repositoryPool.Put`, deferred). -/
inductive Ev
  | getPool
  | setUser (u : String)
  | fromHandler (e : HEv)
  | putPool
deriving DecidableEq, Repr

/-- Response construction from the handler result (lines 58-64 of the
dispatcher): error → `check` writes an error response; nil value → nothing
written; non-nil value → JSON content type and the encoded value, with an
encoding failure again routed through `check`.  JSON encoding of the opaque
result value is the external parameter `encode`. -/
def respond (encode : String → Except String String)
    (ret : Except String (Option String)) : Response :=
  match ret with
  | .error e => httpError e
  | .ok none => { status := 200, contentType := none, body := none }
  | .ok (some v) =>
    match encode v with
    | .ok s => { status := 200, contentType := some "application/json", body := some s }
    | .error e => httpError e

/-- Model of `func handler(f ...)`: the per-request dispatcher.  Authenticate via
`user`; on failure write the error response and return (no pool interaction,
`f` never invoked).  Otherwise take a handle from the pool (its previous,
stale state is the parameter `stale`), rebind `cr.user` to the authenticated
identity, invoke `f` with the handle, the path parameters and the lazy body
decoder, write the response, and release the handle (deferred
`repositoryPool.Put`, hence the trailing `putPool` on every authenticated
path).  Returns the ordered event trace and the response. -/
def handler (verify : String → Except String IDToken)
    (encode : String → Except String String)
    (repo : RepoImpl) (f : HandlerFn) (stale : Repository)
    (req : Request) (ps : Params) : List Ev × Response :=
  match user verify req with
  | .error e => ([], httpError e)
  | .ok u =>
    let cr : Repository := { stale with user := u }
    let out := f repo cr ps req.body
    (Ev.getPool :: Ev.setUser u :: (out.events.map Ev.fromHandler ++ [Ev.putPool]),
     respond encode out.ret)

/-- Occurrence count of an event in a trace. -/
def countEv (a : Ev) : List Ev → Nat
  | [] => 0
  | e :: t => (if e = a then 1 else 0) + countEv a t

/-! ## Theorems -/

/-- C1: whenever authentication fails (`user` returns an error, covering a
missing credential, an invalid one, or an unverified email), the dispatcher
produces an empty event trace — no pool acquisition, no identity rebinding, no
decode or repository call, and in particular the domain handler `f` does not
contribute anything — and the response is the 500 error response.  The result
does not depend on `f`, `encode`, `repo`, the stale handle or the path
parameters. -/
theorem c1_auth_failure_no_dispatch
    (verify : String → Except String IDToken)
    (encode : String → Except String String) (repo : RepoImpl)
    (f : HandlerFn) (stale : Repository) (req : Request) (ps : Params)
    (e : String) (h : user verify req = .error e) :
    handler verify encode repo f stale req ps = ([], httpError e) := by
  unfold handler
  rw [h]

theorem c1_witness :
    user (fun _ => .error "invalid token") { authorization := none, body := ⟨.error "x", .error "x"⟩ } = .error "invalid token" ∧
    handler (fun _ => .error "invalid token") (fun v => .ok v)
      (fun _ _ => .ok none) chartsOfAccounts { user := "stale" }
      { authorization := none, body := ⟨.error "x", .error "x"⟩ } [] =
      ([], httpError "invalid token") :=
  ⟨rfl, c1_auth_failure_no_dispatch _ _ _ _ _ _ _ _ rfl⟩

/-- C6: if the token verifies (`verify` succeeds) and the claims unmarshal to
a payload whose `email_verified` is `false`, then `user` returns exactly the
error `"email not verified"` — a verified signature alone never yields an
identity. -/
theorem c6_unverified_email_rejected
    (verify : String → Except String IDToken) (r : Request)
    (idtoken : IDToken) (email : String)
    (hv : verify (tokenOf r) = .ok idtoken)
    (hc : idtoken.claims = .ok { email := email, verified := false }) :
    user verify r = .error "email not verified" := by
  unfold user
  rw [hv]
  dsimp only
  rw [hc]
  rfl

theorem c6_witness :
    user (fun _ => .ok ⟨.ok ⟨"a@b.c", false⟩⟩)
      { authorization := some ["Bearer t"], body := ⟨.error "x", .error "x"⟩ } =
      .error "email not verified" :=
  c6_unverified_email_rejected _ _ ⟨.ok ⟨"a@b.c", false⟩⟩ "a@b.c" rfl rfl

/-- C7: a request with no `Authorization` header yields the empty token, which
is still submitted to the verifier; whenever the verifier rejects the empty
credential (as a real verifier does), `user` returns that error.  Absence of
the header never bypasses verification: `user`'s result is exactly the
verifier's verdict on `""` threaded through the claims checks, so no identity
can arise without `verify ""` succeeding. -/
theorem c7_absent_header_empty_token_fails
    (verify : String → Except String IDToken) (r : Request)
    (hno : r.authorization = none) :
    tokenOf r = "" ∧
      ∀ e, verify "" = .error e → user verify r = .error e := by
  have ht : tokenOf r = "" := by
    unfold tokenOf
    rw [hno]
  refine ⟨ht, fun e he => ?_⟩
  unfold user
  rw [ht, he]

theorem c7_witness :
    tokenOf { authorization := none, body := ⟨.error "x", .error "x"⟩ } = "" ∧
    user (fun _ => .error "empty token") { authorization := none, body := ⟨.error "x", .error "x"⟩ } =
      .error "empty token" := by
  have h := c7_absent_header_empty_token_fails
    (fun _ => .error "empty token")
    { authorization := none, body := ⟨.error "x", .error "x"⟩ } rfl
  exact ⟨h.1, h.2 "empty token" rfl⟩

/-- C10: the four read handlers (list charts, get chart, list accounts, get
account) never invoke the body decoder — no `decode` event occurs — and their
output is entirely independent of the decoder argument: for any two decoders
`d`, `d'` the result is identical, so the repository call depends only on the
path parameters and the handle. -/
theorem c10_read_handlers_ignore_body
    (repo : RepoImpl) (cr : Repository) (ps : Params) (d d' : Decoder) :
    (chartsOfAccounts repo cr ps d = chartsOfAccounts repo cr ps d' ∧
      HEv.decode ∉ (chartsOfAccounts repo cr ps d).events) ∧
    (getChartOfAccounts repo cr ps d = getChartOfAccounts repo cr ps d' ∧
      HEv.decode ∉ (getChartOfAccounts repo cr ps d).events) ∧
    (accounts repo cr ps d = accounts repo cr ps d' ∧
      HEv.decode ∉ (accounts repo cr ps d).events) ∧
    (getAccount repo cr ps d = getAccount repo cr ps d' ∧
      HEv.decode ∉ (getAccount repo cr ps d).events) := by
  refine ⟨⟨rfl, ?_⟩, ⟨rfl, ?_⟩, ⟨rfl, ?_⟩, ⟨rfl, ?_⟩⟩ <;>
    simp [chartsOfAccounts, getChartOfAccounts, accounts, getAccount]

/-- C8: when decoding the request body fails, each save handler returns that
decode error and performs no repository call: its event list is exactly
`[decode]` (so in particular no `repo` event, hence no `SaveChartOfAccounts`
or `SaveAccount` reaches the repository) and its result is the error. -/
theorem c8_decode_failure_blocks_save
    (repo : RepoImpl) (cr : Repository) (ps : Params) (d : Decoder)
    (e : String) :
    (d.chart = .error e →
      saveChartsOfAccounts repo cr ps d = { events := [.decode], ret := .error e } ∧
      ∀ u c, HEv.repo u c ∉ (saveChartsOfAccounts repo cr ps d).events) ∧
    (d.account = .error e →
      saveAccount repo cr ps d = { events := [.decode], ret := .error e } ∧
      ∀ u c, HEv.repo u c ∉ (saveAccount repo cr ps d).events) := by
  constructor
  · intro h
    refine ⟨?_, ?_⟩ <;> simp [saveChartsOfAccounts, h]
  · intro h
    refine ⟨?_, ?_⟩ <;> simp [saveAccount, h]

theorem c8_witness :
    saveChartsOfAccounts (fun _ _ => .ok none) { user := "alice" } []
        ⟨.error "bad json", .error "bad json"⟩ =
      { events := [.decode], ret := .error "bad json" } ∧
    saveAccount (fun _ _ => .ok none) { user := "alice" } []
        ⟨.error "bad json", .error "bad json"⟩ =
      { events := [.decode], ret := .error "bad json" } :=
  ⟨((c8_decode_failure_blocks_save (fun _ _ => .ok none) { user := "alice" } []
      ⟨.error "bad json", .error "bad json"⟩ "bad json").1 rfl).1,
   ((c8_decode_failure_blocks_save (fun _ _ => .ok none) { user := "alice" } []
      ⟨.error "bad json", .error "bad json"⟩ "bad json").2 rfl).1⟩

/-- C3: when the body decodes, each save handler passes to the repository an
entity whose id is the path parameter when that parameter is non-empty, and
the body's id otherwise; the repository call and the returned value both use
exactly that entity. -/
theorem c3_path_id_authoritative
    (repo : RepoImpl) (cr : Repository) (ps : Params) (d : Decoder)
    (c0 : ChartOfAccounts) (a0 : Account) :
    (d.chart = .ok c0 →
      ∃ c, (saveChartsOfAccounts repo cr ps d).events =
            [.decode, .repo cr.user (.saveChartOfAccounts c)] ∧
          (saveChartsOfAccounts repo cr ps d).ret =
            repo cr.user (.saveChartOfAccounts c) ∧
          c.id = (if byName ps "coa" != "" then byName ps "coa" else c0.id)) ∧
    (d.account = .ok a0 →
      ∃ a, (saveAccount repo cr ps d).events =
            [.decode, .repo cr.user (.saveAccount (byName ps "coa") a)] ∧
          (saveAccount repo cr ps d).ret =
            repo cr.user (.saveAccount (byName ps "coa") a) ∧
          a.id = (if byName ps "account" != "" then byName ps "account" else a0.id)) := by
  constructor
  · intro h
    by_cases hp : (byName ps "coa" != "") = true
    · exact ⟨{ id := byName ps "coa", name := c0.name, user := cr.user },
        by simp [saveChartsOfAccounts, h, hp]⟩
    · exact ⟨{ id := c0.id, name := c0.name, user := cr.user },
        by simp [saveChartsOfAccounts, h, hp]⟩
  · intro h
    by_cases hp : (byName ps "account" != "") = true
    · exact ⟨{ id := byName ps "account", name := a0.name, user := cr.user },
        by simp [saveAccount, h, hp]⟩
    · exact ⟨{ id := a0.id, name := a0.name, user := cr.user },
        by simp [saveAccount, h, hp]⟩

theorem c3_witness :
    (∃ c, (saveChartsOfAccounts (fun _ _ => .ok none) { user := "alice" }
        [("coa", "path-id")] ⟨.ok ⟨"body-id", "Main", "mallory"⟩, .error "x"⟩).events =
          [.decode, .repo "alice" (.saveChartOfAccounts c)] ∧
        (saveChartsOfAccounts (fun _ _ => .ok none) { user := "alice" }
        [("coa", "path-id")] ⟨.ok ⟨"body-id", "Main", "mallory"⟩, .error "x"⟩).ret =
          (fun _ _ => (.ok none : Except String (Option String))) "alice" (RepoCall.saveChartOfAccounts c) ∧
        c.id = (if byName [("coa", "path-id")] "coa" != "" then
          byName [("coa", "path-id")] "coa" else "body-id")) ∧
    byName [("coa", "path-id")] "coa" = "path-id" :=
  ⟨(c3_path_id_authoritative (fun _ _ => .ok none) { user := "alice" }
      [("coa", "path-id")] ⟨.ok ⟨"body-id", "Main", "mallory"⟩, .error "x"⟩
      ⟨"body-id", "Main", "mallory"⟩ ⟨"x", "x", "x"⟩).1 rfl,
    by decide⟩

/-! Helper lemmas about traces (shared). -/

lemma countEv_append (a : Ev) (l m : List Ev) :
    countEv a (l ++ m) = countEv a l + countEv a m := by
  induction l with
  | nil => simp [countEv]
  | cons e t ih => simp [countEv, ih]; omega

lemma countEv_map_fromHandler_getPool (l : List HEv) :
    countEv Ev.getPool (l.map Ev.fromHandler) = 0 := by
  induction l with
  | nil => rfl
  | cons e t ih => simp [countEv, ih]

lemma countEv_map_fromHandler_putPool (l : List HEv) :
    countEv Ev.putPool (l.map Ev.fromHandler) = 0 := by
  induction l with
  | nil => rfl
  | cons e t ih => simp [countEv, ih]

/-- C5: in every request the number of pool releases equals the number of pool
acquisitions, and that number is at most one — whatever the verifier, the
encoder, the repository, the domain handler (even an arbitrary one), the stale
handle, the request or the path parameters, and in every outcome (auth
failure, handler error, nil result, encoded result, encoding failure).  On the
unauthenticated path both counts are 0; on every authenticated path both are
1. -/
theorem c5_one_release_per_acquire
    (verify : String → Except String IDToken)
    (encode : String → Except String String) (repo : RepoImpl)
    (f : HandlerFn) (stale : Repository) (req : Request) (ps : Params) :
    countEv Ev.putPool (handler verify encode repo f stale req ps).1 =
      countEv Ev.getPool (handler verify encode repo f stale req ps).1 ∧
    countEv Ev.getPool (handler verify encode repo f stale req ps).1 ≤ 1 := by
  unfold handler
  cases user verify req with
  | error e => simp [countEv]
  | ok u =>
    dsimp only
    rw [show Ev.getPool :: Ev.setUser u ::
          ((f repo { stale with user := u } ps req.body).events.map Ev.fromHandler ++ [Ev.putPool]) =
        [Ev.getPool, Ev.setUser u] ++
          ((f repo { stale with user := u } ps req.body).events.map Ev.fromHandler ++ [Ev.putPool])
      from rfl]
    rw [countEv_append, countEv_append, countEv_append, countEv_append,
      countEv_map_fromHandler_getPool, countEv_map_fromHandler_putPool]
    simp [countEv]

/-- A domain handler only makes repository calls with the identity currently
bound in the handle it was given. -/
def callsAsBound (f : HandlerFn) : Prop :=
  ∀ (repo : RepoImpl) (cr : Repository) (ps : Params) (d : Decoder)
    (u : String) (c : RepoCall),
    HEv.repo u c ∈ (f repo cr ps d).events → u = cr.user

lemma routeHandlers_callsAsBound :
    ∀ f ∈ routeHandlers, callsAsBound f := by
  intro f hf
  simp only [routeHandlers, List.mem_cons, List.not_mem_nil, or_false] at hf
  rcases hf with h | h | h | h | h | h <;> subst h <;>
    intro repo cr ps d u c hmem
  · simp [chartsOfAccounts] at hmem; exact hmem.1
  · simp [getChartOfAccounts] at hmem; exact hmem.1
  · cases hc : d.chart with
    | error e => simp [saveChartsOfAccounts, hc] at hmem
    | ok c0 => simp [saveChartsOfAccounts, hc] at hmem; exact hmem.1
  · simp [accounts] at hmem; exact hmem.1
  · simp [getAccount] at hmem; exact hmem.1
  · cases ha : d.account with
    | error e => simp [saveAccount, ha] at hmem
    | ok a0 => simp [saveAccount, ha] at hmem; exact hmem.1

/-- C4: for every route-wired handler and every authenticated request, the
dispatcher trace begins with the pool acquisition immediately followed by the
identity rebinding to the authenticated caller `u` — before any handler
event — and every repository call in the rest of the trace is made with the
handle bound to `u`, whatever identity the stale pooled handle carried
before. -/
theorem c4_identity_rebound_before_domain_calls
    (verify : String → Except String IDToken)
    (encode : String → Except String String) (repo : RepoImpl)
    (f : HandlerFn) (stale : Repository) (req : Request) (ps : Params)
    (u : String) (hf : f ∈ routeHandlers) (hu : user verify req = .ok u) :
    ∃ rest, (handler verify encode repo f stale req ps).1 =
        Ev.getPool :: Ev.setUser u :: rest ∧
      ∀ u' c, Ev.fromHandler (HEv.repo u' c) ∈ rest → u' = u := by
  unfold handler
  rw [hu]
  refine ⟨_, rfl, ?_⟩
  intro u' c hmem
  rcases List.mem_append.1 hmem with h | h
  · rcases List.mem_map.1 h with ⟨e, he, hee⟩
    cases hee
    exact routeHandlers_callsAsBound f hf repo _ ps req.body u' c he
  · simp at h

theorem c4_witness :
    ∃ rest, (handler (fun _ => .ok ⟨.ok ⟨"alice", true⟩⟩) (fun v => .ok v)
        (fun _ _ => .ok none) getChartOfAccounts { user := "bob" }
        { authorization := some ["Bearer t"], body := ⟨.error "x", .error "x"⟩ }
        [("coa", "c1")]).1 =
        Ev.getPool :: Ev.setUser "alice" :: rest ∧
      ∀ u' c, Ev.fromHandler (HEv.repo u' c) ∈ rest → u' = "alice" :=
  c4_identity_rebound_before_domain_calls
    (fun _ => .ok ⟨.ok ⟨"alice", true⟩⟩) (fun v => .ok v)
    (fun _ _ => .ok none) getChartOfAccounts { user := "bob" }
    { authorization := some ["Bearer t"], body := ⟨.error "x", .error "x"⟩ }
    [("coa", "c1")] "alice" (by simp [routeHandlers]) rfl

/-- C2: for both save operations, every entity that reaches the repository
carries the authenticated caller's identity as its owner (`user` field) — the
owner value decoded from the request body is never persisted.  Moreover the
owner field of the body is irrelevant to the whole request outcome: two
requests identical except for the decoded body's owner field produce the
identical trace and response (in particular the identical saved entity). -/
theorem c2_owner_is_caller_identity
    (verify : String → Except String IDToken)
    (encode : String → Except String String) (repo : RepoImpl)
    (stale : Repository) (ps : Params) :
    (∀ req u, user verify req = .ok u →
      ∀ u' c, Ev.fromHandler (HEv.repo u' (RepoCall.saveChartOfAccounts c)) ∈
          (handler verify encode repo saveChartsOfAccounts stale req ps).1 →
        c.user = u) ∧
    (∀ req u, user verify req = .ok u →
      ∀ u' coa a, Ev.fromHandler (HEv.repo u' (RepoCall.saveAccount coa a)) ∈
          (handler verify encode repo saveAccount stale req ps).1 →
        a.user = u) ∧
    (∀ A cb w acct,
      handler verify encode repo saveChartsOfAccounts stale
          { authorization := A, body := { chart := .ok cb, account := acct } } ps =
        handler verify encode repo saveChartsOfAccounts stale
          { authorization := A,
            body := { chart := .ok { cb with user := w }, account := acct } } ps) ∧
    (∀ A ch ab w,
      handler verify encode repo saveAccount stale
          { authorization := A, body := { chart := ch, account := .ok ab } } ps =
        handler verify encode repo saveAccount stale
          { authorization := A,
            body := { chart := ch, account := .ok { ab with user := w } } } ps) := by
  refine ⟨?_, ?_, ?_, ?_⟩
  · intro req u hu u' c hmem
    unfold handler at hmem
    rw [hu] at hmem
    cases hc : req.body.chart with
    | error e => simp [saveChartsOfAccounts, hc] at hmem
    | ok c0 =>
      simp [saveChartsOfAccounts, hc] at hmem
      rw [hmem.2]
  · intro req u hu u' coa a hmem
    unfold handler at hmem
    rw [hu] at hmem
    cases ha : req.body.account with
    | error e => simp [saveAccount, ha] at hmem
    | ok a0 =>
      simp [saveAccount, ha] at hmem
      rw [hmem.2.2]
  · intro A cb w acct
    have he : user verify
          { authorization := A, body := { chart := .ok cb, account := acct } } =
        user verify
          { authorization := A,
            body := { chart := .ok { cb with user := w }, account := acct } } := rfl
    unfold handler
    rw [← he]
    cases hu : user verify
        { authorization := A, body := { chart := .ok cb, account := acct } } with
    | error e => rfl
    | ok u =>
      dsimp only
      have hout : ∀ cr : Repository,
          saveChartsOfAccounts repo cr ps { chart := .ok cb, account := acct } =
          saveChartsOfAccounts repo cr ps
            { chart := .ok { cb with user := w }, account := acct } := by
        intro cr
        by_cases hp : (byName ps "coa" != "") = true <;>
          simp [saveChartsOfAccounts, hp]
      rw [hout]
  · intro A ch ab w
    have he : user verify
          { authorization := A, body := { chart := ch, account := .ok ab } } =
        user verify
          { authorization := A,
            body := { chart := ch, account := .ok { ab with user := w } } } := rfl
    unfold handler
    rw [← he]
    cases hu : user verify
        { authorization := A, body := { chart := ch, account := .ok ab } } with
    | error e => rfl
    | ok u =>
      dsimp only
      have hout : ∀ cr : Repository,
          saveAccount repo cr ps { chart := ch, account := .ok ab } =
          saveAccount repo cr ps
            { chart := ch, account := .ok { ab with user := w } } := by
        intro cr
        by_cases hp : (byName ps "account" != "") = true <;>
          simp [saveAccount, hp]
      rw [hout]

theorem c2_witness :
    handler (fun _ => .ok ⟨.ok ⟨"alice", true⟩⟩) (fun v => .ok v)
        (fun _ _ => .ok none) saveChartsOfAccounts { user := "bob" }
        { authorization := some ["Bearer t"],
          body := { chart := .ok ⟨"c1", "Main", "alice"⟩, account := .error "x" } } [] =
      handler (fun _ => .ok ⟨.ok ⟨"alice", true⟩⟩) (fun v => .ok v)
        (fun _ _ => .ok none) saveChartsOfAccounts { user := "bob" }
        { authorization := some ["Bearer t"],
          body := { chart := .ok ⟨"c1", "Main", "mallory"⟩, account := .error "x" } } [] :=
  (c2_owner_is_caller_identity (fun _ => .ok ⟨.ok ⟨"alice", true⟩⟩)
      (fun v => .ok v) (fun _ _ => .ok none) { user := "bob" } []).2.2.1
    (some ["Bearer t"]) ⟨"c1", "Main", "alice"⟩ "mallory" (.error "x")

/-- C9: for every authenticated request, the dispatcher's response is
determined by the handler's result: a nil value writes nothing (no body, no
content type); a non-nil value whose JSON encoding succeeds is written with
the `application/json` content type and the encoded body; a handler error is
written as the 500 error response. -/
theorem c9_response_mapping
    (verify : String → Except String IDToken)
    (encode : String → Except String String) (repo : RepoImpl)
    (f : HandlerFn) (stale : Repository) (req : Request) (ps : Params)
    (u : String) (hu : user verify req = .ok u) :
    ((f repo { stale with user := u } ps req.body).ret = .ok none →
      (handler verify encode repo f stale req ps).2 =
        { status := 200, contentType := none, body := none }) ∧
    (∀ v s, (f repo { stale with user := u } ps req.body).ret = .ok (some v) →
      encode v = .ok s →
      (handler verify encode repo f stale req ps).2 =
        { status := 200, contentType := some "application/json", body := some s }) ∧
    (∀ e, (f repo { stale with user := u } ps req.body).ret = .error e →
      (handler verify encode repo f stale req ps).2 = httpError e) := by
  unfold handler
  rw [hu]
  refine ⟨fun h => ?_, fun v s h hs => ?_, fun e h => ?_⟩
  · simp [respond, h]
  · simp [respond, h, hs]
  · simp [respond, h]

theorem c9_witness :
    (handler (fun _ => .ok ⟨.ok ⟨"alice", true⟩⟩) (fun v => .ok v)
        (fun _ _ => .ok (some "result")) getChartOfAccounts { user := "bob" }
        { authorization := some ["Bearer t"], body := ⟨.error "x", .error "x"⟩ }
        [("coa", "c1")]).2 =
      { status := 200, contentType := some "application/json", body := some "result" } :=
  (c9_response_mapping (fun _ => .ok ⟨.ok ⟨"alice", true⟩⟩) (fun v => .ok v)
      (fun _ _ => .ok (some "result")) getChartOfAccounts { user := "bob" }
      { authorization := some ["Bearer t"], body := ⟨.error "x", .error "x"⟩ }
      [("coa", "c1")] "alice" rfl).2.1 "result" "result" rfl rfl

end CoaApi
